import Mathlib

/-!
Shallow embedding of the iTunes bulk-search collectors of the
app-store-analysis repository, together with proofs about their
deduplication, statistics, rate-limit delay and persistence behaviour.

The embedded source functions are:
* `ExtendedITunesCollector.search_apps` (src/data_collection/itunes_extended_collector.py),
* `QuickITunesCollector.search_apps` (src/data_collection/itunes_quick_collector.py),
* `ITunesAPIClient.search_apps` and `ITunesAPIClient.save_data`
  (src/data_collection/itunes_api.py),
* `ComprehensiveCollector.search_batch` and `ComprehensiveCollector.save_data`
  (src/data_collection/itunes_comprehensive.py),
* `ExtendedITunesCollector.save_data` (itunes_extended_collector.py).

A remote record (a JSON object of the iTunes response's `results` list) is
modelled as an `App`: the collectors only ever inspect its `trackId` field
and otherwise carry the record around opaquely, so the remaining fields are
abstracted into a single `payload` tag.  The outcome of one
`session.get` call is a `FetchResult`: either the call raises (transport
error), or it yields a status code together with an optional parsed body
(`none` models a body on which `response.json()` raises).  A body carries
the optional `resultCount` field and the `results` list
(`data.get("results", [])`).  Python dicts keyed by `trackId` are modelled
as association lists that preserve insertion order, as Python dicts do.
-/

/-- One record of a `results` list.  `trackId` is the optional numeric
identifier (`app.get('trackId')`); `payload` stands for all remaining
fields of the record, which the collectors never inspect. -/
structure App where
  trackId : Option Nat
  payload : Nat
deriving DecidableEq

/-- One parsed response body: the optional `resultCount` field (absent keys
model `data.get("resultCount", 0)` vs the raising `data['resultCount']`)
and the `results` list. -/
structure Body where
  resultCount : Option Nat
  results : List App
deriving DecidableEq

/-- Outcome of one `session.get` call: `exn` models a transport-level
exception raised by the call itself; `ok status body` models a returned
response with the given HTTP status, where `body = none` means
`response.json()` raises (malformed body). -/
inductive FetchResult where
  | exn : FetchResult
  | ok : Nat → Option Body → FetchResult
deriving DecidableEq

/-- The key under which a record is stored: Python's
`if track_id and track_id not in self.all_apps` treats a missing `trackId`
and a zero `trackId` as falsy, so such records yield no key. -/
def keyOf (a : App) : Option Nat :=
  match a.trackId with
  | none => none
  | some v => if v = 0 then none else some v

/-- Lookup in an insertion-ordered association list (Python dict). -/
def lookupId (k : Nat) : List (Nat × App) → Option App
  | [] => none
  | (k', a) :: rest => if k' = k then some a else lookupId k rest

/-- The loop `for app in results: ... if track_id and track_id not in
self.all_apps: self.all_apps[track_id] = app; unique_apps += 1` of the
extended and quick collectors.  Returns the updated dict together with the
number of records inserted (the total increment of `unique_apps`). -/
def storeUnique : List (Nat × App) → List App → List (Nat × App) × Nat
  | apps, [] => (apps, 0)
  | apps, a :: rest =>
    match keyOf a with
    | none => storeUnique apps rest
    | some k =>
      if (lookupId k apps).isSome then
        storeUnique apps rest
      else
        let r := storeUnique (apps ++ [(k, a)]) rest
        (r.1, r.2 + 1)

/-- Python dict assignment `d[k] = v`: replace the value in place when the
key is present, append otherwise. -/
def overwrite : List (Nat × App) → Nat → App → List (Nat × App)
  | [], k, a => [(k, a)]
  | (k', b) :: rest, k, a =>
    if k' = k then (k', a) :: rest else (k', b) :: overwrite rest k a

/-- The loop `for app in results: track_id = app.get('trackId'); if
track_id: self.all_apps[track_id] = app` of
`ComprehensiveCollector.search_batch`: unconditional dict assignment, so a
later sighting of a key replaces the stored record. -/
def storeOverwrite : List (Nat × App) → List App → List (Nat × App)
  | apps, [] => apps
  | apps, a :: rest =>
    match keyOf a with
    | none => storeOverwrite apps rest
    | some k => storeOverwrite (overwrite apps k a) rest

/-- Observable side effects of one `search_apps` call: whether the
`time.sleep(ITUNES_API_DELAY)` delay ran on the taken exit path, and how
many `session.get` calls were issued (the code contains exactly one call
and no retry loop). -/
structure SearchEffect where
  slept : Bool
  attempts : Nat
deriving DecidableEq

/-- State of an `ExtendedITunesCollector`: the `all_apps` dict and the
five counters of its `stats` dict. -/
structure ExtState where
  all_apps : List (Nat × App)
  total_requests : Nat
  successful_requests : Nat
  failed_requests : Nat
  total_apps : Nat
  unique_apps : Nat
deriving DecidableEq

/-- A fresh `ExtendedITunesCollector.__init__` state. -/
def extInit : ExtState := ⟨[], 0, 0, 0, 0, 0⟩

/-- `ExtendedITunesCollector.search_apps`.  The `try` body issues one
`session.get`; a transport exception skips the `total_requests` increment
and lands in `except` (`failed_requests += 1`); a 200 response is parsed
(`response.json()` raising lands in `except` after `total_requests` was
already incremented); on success the dedup loop runs, `total_apps` grows
by `len(results)` and the results are returned; a non-200 status increments
`failed_requests` and returns `None`.  The `finally: time.sleep(...)` runs
on every path. -/
def ExtendedITunesCollector.search_apps (s : ExtState) (r : FetchResult) :
    Option (List App) × SearchEffect × ExtState :=
  match r with
  | .exn =>
    (none, ⟨true, 1⟩,
      ⟨s.all_apps, s.total_requests, s.successful_requests,
        s.failed_requests + 1, s.total_apps, s.unique_apps⟩)
  | .ok status body =>
    if status = 200 then
      match body with
      | none =>
        (none, ⟨true, 1⟩,
          ⟨s.all_apps, s.total_requests + 1, s.successful_requests,
            s.failed_requests + 1, s.total_apps, s.unique_apps⟩)
      | some b =>
        let ins := storeUnique s.all_apps b.results
        (some b.results, ⟨true, 1⟩,
          ⟨ins.1, s.total_requests + 1, s.successful_requests + 1,
            s.failed_requests, s.total_apps + b.results.length,
            s.unique_apps + ins.2⟩)
    else
      (none, ⟨true, 1⟩,
        ⟨s.all_apps, s.total_requests + 1, s.successful_requests,
          s.failed_requests + 1, s.total_apps, s.unique_apps⟩)

/-- A query loop of the extended collector (`collect_popular_searches`,
`collect_by_categories`, ...): one `search_apps` call per query, strictly
in order; `search_apps` never raises, so the loop always reaches the next
query.  The environment's response to the i-th query is the i-th
`FetchResult`. -/
def ExtendedITunesCollector.collect (s : ExtState) : List FetchResult → ExtState
  | [] => s
  | r :: rest =>
    ExtendedITunesCollector.collect (ExtendedITunesCollector.search_apps s r).2.2 rest

/-- The concatenation of the `results` lists of all successfully parsed
200 responses, in query order: exactly the records the collectors' dedup
loops process. -/
def goodResults : List FetchResult → List App
  | [] => []
  | .ok status body :: rest =>
    (if status = 200 then
      match body with
      | some b => b.results
      | none => []
    else []) ++ goodResults rest
  | .exn :: rest => goodResults rest

/-- First record of the list whose (truthy) `trackId` is `k`. -/
def firstHit (k : Nat) : List App → Option App
  | [] => none
  | a :: rest => if keyOf a = some k then some a else firstHit k rest

/-- Last record of the list whose (truthy) `trackId` is `k`. -/
def lastHit (k : Nat) : List App → Option App
  | [] => none
  | a :: rest =>
    match lastHit k rest with
    | some b => some b
    | none => if keyOf a = some k then some a else none

/-- Left-biased choice on options. -/
def firstSome : Option App → Option App → Option App
  | some a, _ => some a
  | none, o => o

/-- State of a `QuickITunesCollector`: its `stats` dict has only the
`total_requests`, `successful_requests` and `unique_apps` counters —
there is no failed-request counter and no `total_apps` counter. -/
structure QuickState where
  all_apps : List (Nat × App)
  total_requests : Nat
  successful_requests : Nat
  unique_apps : Nat
deriving DecidableEq

/-- A fresh `QuickITunesCollector.__init__` state. -/
def quickInit : QuickState := ⟨[], 0, 0, 0⟩

/-- `QuickITunesCollector.search_apps`.  Same request/parse structure as
the extended collector, but it returns `len(results)` (or `0`), and no
counter records a failure: a transport exception leaves the state
untouched, a non-200 status or a raising `response.json()` only
increments `total_requests`.  `finally: time.sleep(...)` runs on every
path. -/
def QuickITunesCollector.search_apps (s : QuickState) (r : FetchResult) :
    Nat × SearchEffect × QuickState :=
  match r with
  | .exn => (0, ⟨true, 1⟩, s)
  | .ok status body =>
    if status = 200 then
      match body with
      | none =>
        (0, ⟨true, 1⟩,
          ⟨s.all_apps, s.total_requests + 1, s.successful_requests, s.unique_apps⟩)
      | some b =>
        let ins := storeUnique s.all_apps b.results
        (b.results.length, ⟨true, 1⟩,
          ⟨ins.1, s.total_requests + 1, s.successful_requests + 1,
            s.unique_apps + ins.2⟩)
    else
      (0, ⟨true, 1⟩,
        ⟨s.all_apps, s.total_requests + 1, s.successful_requests, s.unique_apps⟩)

/-- A query loop of the quick collector (`collect_priority_searches`,
`collect_top_categories`): one `search_apps` call per query. -/
def QuickITunesCollector.run (s : QuickState) : List FetchResult → QuickState
  | [] => s
  | r :: rest =>
    QuickITunesCollector.run (QuickITunesCollector.search_apps s r).2.2 rest

/-- The `stats` dict of an `ITunesAPIClient` (the four counters relevant
to `search_apps`). -/
structure ApiStats where
  total_requests : Nat
  successful_requests : Nat
  failed_requests : Nat
  total_apps : Nat
deriving DecidableEq

/-- A fresh `ITunesAPIClient.__init__` stats dict. -/
def apiInit : ApiStats := ⟨0, 0, 0, 0⟩

/-- `ITunesAPIClient.search_apps`.  A transport exception lands in
`except` before `total_requests` is incremented, so only
`failed_requests` grows.  On a 200 response, `response.json()` raising
lands in `except` after `total_requests += 1`; otherwise
`successful_requests` and `total_apps += data.get("resultCount", 0)` are
updated, and the subsequent f-string `data['resultCount']` raises
`KeyError` into `except` when the key is absent.  A non-200 status
increments `failed_requests`.  `finally: time.sleep(...)` runs on every
path. -/
def ITunesAPIClient.search_apps (s : ApiStats) (r : FetchResult) :
    Option (List App) × SearchEffect × ApiStats :=
  match r with
  | .exn =>
    (none, ⟨true, 1⟩,
      ⟨s.total_requests, s.successful_requests, s.failed_requests + 1, s.total_apps⟩)
  | .ok status body =>
    if status = 200 then
      match body with
      | none =>
        (none, ⟨true, 1⟩,
          ⟨s.total_requests + 1, s.successful_requests, s.failed_requests + 1,
            s.total_apps⟩)
      | some b =>
        match b.resultCount with
        | some rc =>
          (some b.results, ⟨true, 1⟩,
            ⟨s.total_requests + 1, s.successful_requests + 1, s.failed_requests,
              s.total_apps + rc⟩)
        | none =>
          (none, ⟨true, 1⟩,
            ⟨s.total_requests + 1, s.successful_requests + 1,
              s.failed_requests + 1, s.total_apps⟩)
    else
      (none, ⟨true, 1⟩,
        ⟨s.total_requests + 1, s.successful_requests, s.failed_requests + 1,
          s.total_apps⟩)

/-- A sequence of `ITunesAPIClient.search_apps` calls on one client. -/
def ITunesAPIClient.run (s : ApiStats) : List FetchResult → ApiStats
  | [] => s
  | r :: rest => ITunesAPIClient.run (ITunesAPIClient.search_apps s r).2.2 rest

/-- One iteration of the `for term, params in searches` loop of
`ComprehensiveCollector.search_batch`.  The `time.sleep(0.3)` sits inside
the `try`, after the status check: a transport exception or a raising
`response.json()` jumps to `except ... continue` and skips the sleep,
while a non-200 response (the `if` is simply skipped) and a parsed 200
response do sleep.  Returns the updated `all_apps` dict and whether the
sleep ran. -/
def ComprehensiveCollector.searchStep (apps : List (Nat × App)) (r : FetchResult) :
    List (Nat × App) × Bool :=
  match r with
  | .exn => (apps, false)
  | .ok status body =>
    if status = 200 then
      match body with
      | none => (apps, false)
      | some b => (storeOverwrite apps b.results, true)
    else (apps, true)

/-- `ComprehensiveCollector.search_batch`: the full loop over the batch of
(term, params) pairs. -/
def ComprehensiveCollector.search_batch (apps : List (Nat × App)) :
    List FetchResult → List (Nat × App)
  | [] => apps
  | r :: rest =>
    ComprehensiveCollector.search_batch
      (ComprehensiveCollector.searchStep apps r).1 rest

/-- Whether the destination of a file write is writable; the input that
decides whether `open`/`json.dump` raise an `IOError`. -/
inductive WriteOutcome where
  | writable : WriteOutcome
  | ioError : WriteOutcome
deriving DecidableEq

/-- `ExtendedITunesCollector.save_data`: builds
`apps_list = list(self.all_apps.values())`, then writes it to
`self.data_dir / filename` with no exception handler, so an unwritable
destination propagates the I/O error to the caller.  On success it
returns the file path; the written document is the `values()` list. -/
def ExtendedITunesCollector.save_data (apps : List (Nat × App))
    (filename : String) (w : WriteOutcome) : Except Unit (String × List App) :=
  match w with
  | .writable => .ok (filename, apps.map Prod.snd)
  | .ioError => .error ()

/-- `ComprehensiveCollector.save_data`: identical write structure (no
exception handler; document is `list(self.all_apps.values())`). -/
def ComprehensiveCollector.save_data (apps : List (Nat × App))
    (filename : String) (w : WriteOutcome) : Except Unit (String × List App) :=
  match w with
  | .writable => .ok (filename, apps.map Prod.snd)
  | .ioError => .error ()

/-- `ITunesAPIClient.save_data`: the write is wrapped in
`try ... except Exception: logger.error(...)`, so an I/O error is
swallowed and the function returns normally either way; the `Bool`
records whether the file was actually written. -/
def ITunesAPIClient.save_data (w : WriteOutcome) : Except Unit Bool :=
  match w with
  | .writable => .ok true
  | .ioError => .ok false

/-- Classifies the `search_apps` outcomes the spec calls failures:
everything except a 200 response whose body parses. -/
def isFailure : FetchResult → Bool
  | .exn => true
  | .ok status body =>
    if status = 200 then
      match body with
      | some _ => false
      | none => true
    else true

/-- Whether `session.get` returned a response at all (and hence whether
the `total_requests += 1` after the call executed). -/
def gotResponse : FetchResult → Bool
  | .exn => false
  | .ok _ _ => true

theorem firstSome_none_right (o : Option App) : firstSome o none = o := by
  cases o <;> rfl

theorem firstSome_assoc (a b c : Option App) :
    firstSome (firstSome a b) c = firstSome a (firstSome b c) := by
  cases a <;> rfl

theorem lookupId_append_single (k k' : Nat) (a : App) (apps : List (Nat × App)) :
    lookupId k (apps ++ [(k', a)])
      = firstSome (lookupId k apps) (if k' = k then some a else none) := by
  induction apps with
  | nil => simp [lookupId, firstSome]
  | cons p rest ih =>
    obtain ⟨k₂, b⟩ := p
    by_cases h : k₂ = k
    · simp [lookupId, h, firstSome]
    · simp only [List.cons_append, lookupId, if_neg h, List.append_eq]
      exact ih

theorem firstHit_cons (k : Nat) (a : App) (rs : List App) :
    firstHit k (a :: rs)
      = if keyOf a = some k then some a else firstHit k rs := rfl

theorem storeUnique_lookup (k : Nat) (rs : List App) (apps : List (Nat × App)) :
    lookupId k (storeUnique apps rs).1
      = firstSome (lookupId k apps) (firstHit k rs) := by
  induction rs generalizing apps with
  | nil => simp [storeUnique, firstHit, firstSome_none_right]
  | cons a rest ih =>
    rcases hk : keyOf a with _ | k'
    · have hne : ¬ keyOf a = some k := by simp [hk]
      simp [storeUnique, hk, firstHit_cons, hne, ih]
    · by_cases hmem : (lookupId k' apps).isSome
      · have hstep : (storeUnique apps (a :: rest)).1 = (storeUnique apps rest).1 := by
          simp [storeUnique, hk, hmem]
        rw [hstep, ih]
        by_cases hkk : k' = k
        · subst hkk
          obtain ⟨b, hb⟩ := Option.isSome_iff_exists.mp hmem
          simp [firstHit_cons, hk, hb, firstSome]
        · have hne : ¬ keyOf a = some k := by simp [hk, hkk]
          simp [firstHit_cons, hne]
      · have hstep : (storeUnique apps (a :: rest)).1
            = (storeUnique (apps ++ [(k', a)]) rest).1 := by
          simp [storeUnique, hk, hmem]
        rw [hstep, ih, lookupId_append_single]
        by_cases hkk : k' = k
        · subst hkk
          have hnone : lookupId k' apps = none := by
            cases h : lookupId k' apps with
            | none => rfl
            | some b => rw [h] at hmem; simp at hmem
          simp [hnone, firstHit_cons, hk, firstSome]
        · have hne : ¬ keyOf a = some k := by simp [hk, hkk]
          simp [hkk, firstHit_cons, hne, firstSome_none_right]

theorem lookupId_overwrite (k k' : Nat) (a : App) (apps : List (Nat × App)) :
    lookupId k (overwrite apps k' a)
      = if k' = k then some a else lookupId k apps := by
  induction apps with
  | nil => simp [overwrite, lookupId]
  | cons p rest ih =>
    obtain ⟨k₂, b⟩ := p
    by_cases h2 : k₂ = k'
    · subst h2
      by_cases hkk : k₂ = k
      · simp [overwrite, lookupId, hkk]
      · simp [overwrite, lookupId, hkk]
    · by_cases hkk : k₂ = k
      · subst hkk
        have : ¬ k' = k₂ := fun h => h2 h.symm
        simp [overwrite, lookupId, h2, this]
      · simp [overwrite, lookupId, h2, hkk, ih]

theorem lastHit_cons (k : Nat) (a : App) (rs : List App) :
    lastHit k (a :: rs)
      = firstSome (lastHit k rs) (if keyOf a = some k then some a else none) := by
  cases h : lastHit k rs <;> simp [lastHit, h, firstSome]

theorem storeOverwrite_lookup (k : Nat) (rs : List App) (apps : List (Nat × App)) :
    lookupId k (storeOverwrite apps rs)
      = firstSome (lastHit k rs) (lookupId k apps) := by
  induction rs generalizing apps with
  | nil => simp [storeOverwrite, lastHit, firstSome]
  | cons a rest ih =>
    rcases hk : keyOf a with _ | k'
    · have hne : ¬ keyOf a = some k := by simp [hk]
      simp [storeOverwrite, hk, lastHit_cons, hne, firstSome_none_right, ih]
    · have hstep : storeOverwrite apps (a :: rest)
          = storeOverwrite (overwrite apps k' a) rest := by
        simp [storeOverwrite, hk]
      rw [hstep, ih, lookupId_overwrite, lastHit_cons]
      by_cases hkk : k' = k
      · subst hkk
        simp only [if_pos rfl, hk]
        cases lastHit k' rest <;> simp [firstSome]
      · have hne : ¬ keyOf a = some k := by simp [hk, hkk]
        simp [hkk, hne, firstSome_none_right]

theorem firstHit_append (k : Nat) (xs ys : List App) :
    firstHit k (xs ++ ys) = firstSome (firstHit k xs) (firstHit k ys) := by
  induction xs with
  | nil => simp [firstHit, firstSome]
  | cons a rest ih =>
    by_cases h : keyOf a = some k
    · simp [firstHit_cons, h, firstSome]
    · simp [firstHit_cons, h, ih]

theorem lastHit_append (k : Nat) (xs ys : List App) :
    lastHit k (xs ++ ys) = firstSome (lastHit k ys) (lastHit k xs) := by
  induction xs with
  | nil => simp [lastHit, firstSome_none_right]
  | cons a rest ih =>
    rw [List.cons_append, lastHit_cons, ih, lastHit_cons, firstSome_assoc]

theorem collect_lookup (k : Nat) (fs : List FetchResult) (s : ExtState) :
    lookupId k (ExtendedITunesCollector.collect s fs).all_apps
      = firstSome (lookupId k s.all_apps) (firstHit k (goodResults fs)) := by
  induction fs generalizing s with
  | nil =>
    simp [ExtendedITunesCollector.collect, goodResults, firstHit, firstSome_none_right]
  | cons r rest ih =>
    have hc : ExtendedITunesCollector.collect s (r :: rest)
        = ExtendedITunesCollector.collect
            (ExtendedITunesCollector.search_apps s r).2.2 rest := rfl
    rw [hc, ih]
    cases r with
    | exn => simp [ExtendedITunesCollector.search_apps, goodResults]
    | ok status body =>
      by_cases hs : status = 200
      · cases body with
        | none => simp [ExtendedITunesCollector.search_apps, hs, goodResults]
        | some b =>
          have hst : (ExtendedITunesCollector.search_apps s
                (.ok status (some b))).2.2.all_apps
              = (storeUnique s.all_apps b.results).1 := by
            simp [ExtendedITunesCollector.search_apps, hs]
          have hg : goodResults (FetchResult.ok status (some b) :: rest)
              = b.results ++ goodResults rest := by simp [goodResults, hs]
          rw [hst, storeUnique_lookup, firstSome_assoc, hg, firstHit_append]
      · simp [ExtendedITunesCollector.search_apps, hs, goodResults]

theorem search_batch_lookup (k : Nat) (fs : List FetchResult)
    (apps : List (Nat × App)) :
    lookupId k (ComprehensiveCollector.search_batch apps fs)
      = firstSome (lastHit k (goodResults fs)) (lookupId k apps) := by
  induction fs generalizing apps with
  | nil => simp [ComprehensiveCollector.search_batch, goodResults, lastHit, firstSome]
  | cons r rest ih =>
    have hc : ComprehensiveCollector.search_batch apps (r :: rest)
        = ComprehensiveCollector.search_batch
            (ComprehensiveCollector.searchStep apps r).1 rest := rfl
    rw [hc, ih]
    cases r with
    | exn => simp [ComprehensiveCollector.searchStep, goodResults]
    | ok status body =>
      by_cases hs : status = 200
      · cases body with
        | none => simp [ComprehensiveCollector.searchStep, hs, goodResults]
        | some b =>
          have hst : (ComprehensiveCollector.searchStep apps (.ok status (some b))).1
              = storeOverwrite apps b.results := by
            simp [ComprehensiveCollector.searchStep, hs]
          have hg : goodResults (FetchResult.ok status (some b) :: rest)
              = b.results ++ goodResults rest := by simp [goodResults, hs]
          rw [hst, storeOverwrite_lookup, hg, lastHit_append, ← firstSome_assoc]
      · simp [ComprehensiveCollector.searchStep, hs, goodResults]

theorem storeUnique_len (rs : List App) (apps : List (Nat × App)) :
    (storeUnique apps rs).1.length = apps.length + (storeUnique apps rs).2 := by
  induction rs generalizing apps with
  | nil => simp [storeUnique]
  | cons a rest ih =>
    rcases hk : keyOf a with _ | k
    · simp [storeUnique, hk, ih]
    · by_cases hmem : (lookupId k apps).isSome
      · simp [storeUnique, hk, hmem, ih]
      · have := ih (apps ++ [(k, a)])
        simp only [storeUnique, hk, hmem, Bool.false_eq_true, if_false,
          List.length_append, List.length_cons, List.length_nil] at this ⊢
        omega

theorem storeUnique_count_le (rs : List App) (apps : List (Nat × App)) :
    (storeUnique apps rs).2 ≤ rs.length := by
  induction rs generalizing apps with
  | nil => simp [storeUnique]
  | cons a rest ih =>
    rcases hk : keyOf a with _ | k
    · simp only [storeUnique, hk, List.length_cons]
      exact Nat.le_succ_of_le (ih apps)
    · by_cases hmem : (lookupId k apps).isSome
      · simp only [storeUnique, hk, hmem, if_true, List.length_cons]
        exact Nat.le_succ_of_le (ih apps)
      · simp only [storeUnique, hk, hmem, Bool.false_eq_true, if_false,
          List.length_cons]
        exact Nat.succ_le_succ (ih (apps ++ [(k, a)]))

/-- The statistics invariant of the extended collector: `unique_apps`
tracks the size of `all_apps`, and never exceeds `total_apps`. -/
def ExtInv (s : ExtState) : Prop :=
  s.unique_apps = s.all_apps.length ∧ s.unique_apps ≤ s.total_apps

theorem search_apps_inv (s : ExtState) (r : FetchResult) (h : ExtInv s) :
    ExtInv (ExtendedITunesCollector.search_apps s r).2.2 := by
  obtain ⟨h1, h2⟩ := h
  cases r with
  | exn => exact ⟨h1, h2⟩
  | ok status body =>
    by_cases hs : status = 200
    · cases body with
      | none => simpa [ExtendedITunesCollector.search_apps, hs, ExtInv] using ⟨h1, h2⟩
      | some b =>
        have hlen := storeUnique_len b.results s.all_apps
        have hle := storeUnique_count_le b.results s.all_apps
        simp only [ExtInv]
        simp [ExtendedITunesCollector.search_apps, hs]
        omega
    · simpa [ExtendedITunesCollector.search_apps, hs, ExtInv] using ⟨h1, h2⟩

theorem collect_inv (fs : List FetchResult) (s : ExtState) (h : ExtInv s) :
    ExtInv (ExtendedITunesCollector.collect s fs) := by
  induction fs generalizing s with
  | nil => exact h
  | cons r rest ih => exact ih _ (search_apps_inv s r h)

/-- The statistics invariant of the quick collector: `unique_apps` tracks
the size of `all_apps`. -/
def QuickInv (q : QuickState) : Prop :=
  q.unique_apps = q.all_apps.length

theorem quick_search_inv (q : QuickState) (r : FetchResult) (h : QuickInv q) :
    QuickInv (QuickITunesCollector.search_apps q r).2.2 := by
  cases r with
  | exn => exact h
  | ok status body =>
    by_cases hs : status = 200
    · cases body with
      | none => simpa [QuickITunesCollector.search_apps, hs, QuickInv] using h
      | some b =>
        have hlen := storeUnique_len b.results q.all_apps
        simp only [QuickInv] at h ⊢
        simp [QuickITunesCollector.search_apps, hs]
        omega
    · simpa [QuickITunesCollector.search_apps, hs, QuickInv] using h

theorem quick_run_inv (fs : List FetchResult) (q : QuickState) (h : QuickInv q) :
    QuickInv (QuickITunesCollector.run q fs) := by
  induction fs generalizing q with
  | nil => exact h
  | cons r rest ih => exact ih _ (quick_search_inv q r h)

theorem collect_total_apps (fs : List FetchResult) (s : ExtState) :
    (ExtendedITunesCollector.collect s fs).total_apps
      = s.total_apps + (goodResults fs).length := by
  induction fs generalizing s with
  | nil => simp [ExtendedITunesCollector.collect, goodResults]
  | cons r rest ih =>
    have hc : ExtendedITunesCollector.collect s (r :: rest)
        = ExtendedITunesCollector.collect
            (ExtendedITunesCollector.search_apps s r).2.2 rest := rfl
    rw [hc, ih]
    cases r with
    | exn => simp [ExtendedITunesCollector.search_apps, goodResults]
    | ok status body =>
      by_cases hs : status = 200
      · cases body with
        | none => simp [ExtendedITunesCollector.search_apps, hs, goodResults]
        | some b =>
          simp [ExtendedITunesCollector.search_apps, hs, goodResults]
          omega
      · simp [ExtendedITunesCollector.search_apps, hs, goodResults]

/-- Well-formedness of the `all_apps` dict: every stored record sits under
its own (truthy) `trackId`. -/
def DictWF (apps : List (Nat × App)) : Prop :=
  ∀ p ∈ apps, keyOf p.2 = some p.1

theorem storeUnique_WF (rs : List App) (apps : List (Nat × App))
    (h : DictWF apps) : DictWF (storeUnique apps rs).1 := by
  induction rs generalizing apps with
  | nil => exact h
  | cons a rest ih =>
    rcases hk : keyOf a with _ | k
    · simpa [storeUnique, hk] using ih apps h
    · by_cases hmem : (lookupId k apps).isSome
      · simpa [storeUnique, hk, hmem] using ih apps h
      · simp only [storeUnique, hk, hmem, Bool.false_eq_true, if_false]
        refine ih (apps ++ [(k, a)]) ?_
        intro p hp
        rcases List.mem_append.mp hp with hp | hp
        · exact h p hp
        · rcases List.mem_singleton.mp hp with rfl
          simpa using hk

theorem collect_WF (fs : List FetchResult) (s : ExtState)
    (h : DictWF s.all_apps) :
    DictWF (ExtendedITunesCollector.collect s fs).all_apps := by
  induction fs generalizing s with
  | nil => exact h
  | cons r rest ih =>
    refine ih _ ?_
    cases r with
    | exn => exact h
    | ok status body =>
      by_cases hs : status = 200
      · cases body with
        | none => simpa [ExtendedITunesCollector.search_apps, hs] using h
        | some b =>
          simp only [ExtendedITunesCollector.search_apps, hs, if_pos rfl]
          exact storeUnique_WF b.results s.all_apps h
      · simpa [ExtendedITunesCollector.search_apps, hs] using h

/-- The request-counter invariant implicit in `search_apps`:
`successful_requests` never exceeds `total_requests`, and
`total_requests` never exceeds `successful_requests + failed_requests`
(a transport exception grows `failed_requests` without growing
`total_requests`, so equality does not hold in general). -/
def ReqInv (total succ failed : Nat) : Prop :=
  succ ≤ total ∧ total ≤ succ + failed

theorem api_search_reqInv (s : ApiStats) (r : FetchResult)
    (h : ReqInv s.total_requests s.successful_requests s.failed_requests) :
    ReqInv (ITunesAPIClient.search_apps s r).2.2.total_requests
      (ITunesAPIClient.search_apps s r).2.2.successful_requests
      (ITunesAPIClient.search_apps s r).2.2.failed_requests := by
  simp only [ReqInv] at h ⊢
  cases r with
  | exn => simp [ITunesAPIClient.search_apps]; omega
  | ok status body =>
    by_cases hs : status = 200
    · cases body with
      | none => simp [ITunesAPIClient.search_apps, hs]; omega
      | some b =>
        obtain ⟨rc, rs⟩ := b
        cases rc <;> · simp [ITunesAPIClient.search_apps, hs]; omega
    · simp [ITunesAPIClient.search_apps, hs]; omega

theorem api_run_reqInv (fs : List FetchResult) (s : ApiStats)
    (h : ReqInv s.total_requests s.successful_requests s.failed_requests) :
    ReqInv (ITunesAPIClient.run s fs).total_requests
      (ITunesAPIClient.run s fs).successful_requests
      (ITunesAPIClient.run s fs).failed_requests := by
  induction fs generalizing s with
  | nil => exact h
  | cons r rest ih => exact ih _ (api_search_reqInv s r h)

theorem ext_search_reqInv (s : ExtState) (r : FetchResult)
    (h : ReqInv s.total_requests s.successful_requests s.failed_requests) :
    ReqInv (ExtendedITunesCollector.search_apps s r).2.2.total_requests
      (ExtendedITunesCollector.search_apps s r).2.2.successful_requests
      (ExtendedITunesCollector.search_apps s r).2.2.failed_requests := by
  simp only [ReqInv] at h ⊢
  cases r with
  | exn => simp [ExtendedITunesCollector.search_apps]; omega
  | ok status body =>
    by_cases hs : status = 200
    · cases body with
      | none => simp [ExtendedITunesCollector.search_apps, hs]; omega
      | some b => simp [ExtendedITunesCollector.search_apps, hs]; omega
    · simp [ExtendedITunesCollector.search_apps, hs]; omega

theorem ext_collect_reqInv (fs : List FetchResult) (s : ExtState)
    (h : ReqInv s.total_requests s.successful_requests s.failed_requests) :
    ReqInv (ExtendedITunesCollector.collect s fs).total_requests
      (ExtendedITunesCollector.collect s fs).successful_requests
      (ExtendedITunesCollector.collect s fs).failed_requests := by
  induction fs generalizing s with
  | nil => exact h
  | cons r rest ih => exact ih _ (ext_search_reqInv s r h)

/-- The document component of a `save_data` result. -/
def docOf : Except Unit (String × List App) → Option (List App)
  | .ok (_, d) => some d
  | .error _ => none

/-- Claim C1: the claim as stated — "the record retained in the
`Collection` is the one returned by the earliest query; a later sighting
of an already-present `itemId` is discarded" — is FALSE for
`ComprehensiveCollector.search_batch`: its loop assigns
`self.all_apps[track_id] = app` unconditionally, so a later sighting
overwrites.  At the spec's own scenario (query "game" returns items 1 and
2, query "social" returns items 2 and 3), the stored record for item 2 is
the one from the second query, not from the first. -/
theorem C1_counterexample :
    lookupId 2 (ComprehensiveCollector.search_batch []
      [FetchResult.ok 200 (some ⟨some 2, [⟨some 1, 10⟩, ⟨some 2, 20⟩]⟩),
       FetchResult.ok 200 (some ⟨some 2, [⟨some 2, 21⟩, ⟨some 3, 30⟩]⟩)])
      = some ⟨some 2, 21⟩
    ∧ firstHit 2 (goodResults
      [FetchResult.ok 200 (some ⟨some 2, [⟨some 1, 10⟩, ⟨some 2, 20⟩]⟩),
       FetchResult.ok 200 (some ⟨some 2, [⟨some 2, 21⟩, ⟨some 3, 30⟩]⟩)])
      = some ⟨some 2, 20⟩
    ∧ (⟨some 2, 21⟩ : App) ≠ ⟨some 2, 20⟩ := by
  decide

/-- Claim C1 (amended): in the extended collector's `collect` loops the
first-write-wins policy holds — the record retained under each `itemId`
is the first record with that (truthy) id in the stream of all returned
results, and later sightings are discarded — while in
`ComprehensiveCollector.search_batch` the retained record is the LAST
such record (later sightings overwrite). -/
theorem C1_dedup_policy (fs : List FetchResult) (k : Nat) :
    lookupId k (ExtendedITunesCollector.collect extInit fs).all_apps
      = firstHit k (goodResults fs)
    ∧ lookupId k (ComprehensiveCollector.search_batch [] fs)
      = lastHit k (goodResults fs) := by
  constructor
  · rw [collect_lookup]
    rfl
  · rw [search_batch_lookup]
    exact firstSome_none_right _

/-- Claim C2: the claim as stated — every failing `search` invocation
"records the failure in the failed-request counter" — is FALSE for
`QuickITunesCollector.search_apps`: its `stats` dict has no
failed-request counter, and on a transport error the whole state
(including every counter it does have) is unchanged. -/
theorem C2_counterexample :
    (QuickITunesCollector.search_apps quickInit FetchResult.exn).1 = 0
    ∧ (QuickITunesCollector.search_apps quickInit FetchResult.exn).2.2
        = quickInit := by
  decide

/-- Claim C2 (amended): on every failing invocation (transport error,
non-2xx status, or malformed body) `ExtendedITunesCollector.search_apps`
returns an empty result (`None`), increments `failed_requests`, does not
raise, and issues exactly one request (no retry);
`QuickITunesCollector.search_apps` likewise returns an empty result (`0`)
without raising or retrying, but records the failure in no counter: its
`all_apps`, `successful_requests` and `unique_apps` are unchanged (it has
no failed-request counter at all). -/
theorem C2_failure_handling (s : ExtState) (q : QuickState) (r : FetchResult)
    (h : isFailure r = true) :
    (ExtendedITunesCollector.search_apps s r).1 = none
    ∧ (ExtendedITunesCollector.search_apps s r).2.2.failed_requests
        = s.failed_requests + 1
    ∧ (ExtendedITunesCollector.search_apps s r).2.1.attempts = 1
    ∧ (QuickITunesCollector.search_apps q r).1 = 0
    ∧ (QuickITunesCollector.search_apps q r).2.2.all_apps = q.all_apps
    ∧ (QuickITunesCollector.search_apps q r).2.2.successful_requests
        = q.successful_requests
    ∧ (QuickITunesCollector.search_apps q r).2.2.unique_apps = q.unique_apps
    ∧ (QuickITunesCollector.search_apps q r).2.1.attempts = 1 := by
  cases r with
  | exn => exact ⟨rfl, rfl, rfl, rfl, rfl, rfl, rfl, rfl⟩
  | ok status body =>
    by_cases hs : status = 200
    · cases body with
      | some b => simp [isFailure, hs] at h
      | none =>
        refine ⟨?_, ?_, ?_, ?_, ?_, ?_, ?_, ?_⟩ <;>
          simp [ExtendedITunesCollector.search_apps,
            QuickITunesCollector.search_apps, hs]
    · refine ⟨?_, ?_, ?_, ?_, ?_, ?_, ?_, ?_⟩ <;>
        simp [ExtendedITunesCollector.search_apps,
          QuickITunesCollector.search_apps, hs]

/-- Witness for `C2_failure_handling` at a transport error on fresh
collectors. -/
theorem C2_failure_handling_witness :
    isFailure FetchResult.exn = true
    ∧ ((ExtendedITunesCollector.search_apps extInit FetchResult.exn).1 = none
      ∧ (ExtendedITunesCollector.search_apps extInit FetchResult.exn).2.2.failed_requests
          = extInit.failed_requests + 1
      ∧ (ExtendedITunesCollector.search_apps extInit FetchResult.exn).2.1.attempts = 1
      ∧ (QuickITunesCollector.search_apps quickInit FetchResult.exn).1 = 0
      ∧ (QuickITunesCollector.search_apps quickInit FetchResult.exn).2.2.all_apps
          = quickInit.all_apps
      ∧ (QuickITunesCollector.search_apps quickInit FetchResult.exn).2.2.successful_requests
          = quickInit.successful_requests
      ∧ (QuickITunesCollector.search_apps quickInit FetchResult.exn).2.2.unique_apps
          = quickInit.unique_apps
      ∧ (QuickITunesCollector.search_apps quickInit FetchResult.exn).2.1.attempts = 1) :=
  ⟨by decide, C2_failure_handling extInit quickInit FetchResult.exn (by decide)⟩

/-- Claim C3: the claim as stated — the fixed inter-request delay runs on
every exit path of every search operation — is FALSE for
`ComprehensiveCollector.search_batch`: its `time.sleep(0.3)` sits inside
the `try` block, so the iteration for a query whose request raises a
transport error (or whose body fails to parse) jumps to
`except ... continue` and performs no delay. -/
theorem C3_counterexample :
    (ComprehensiveCollector.searchStep [] FetchResult.exn).2 = false
    ∧ (ComprehensiveCollector.searchStep [] (FetchResult.ok 200 none)).2
        = false := by
  decide

/-- Claim C3 (amended): `search_apps` of the extended, quick and API
collectors runs the delay in a `finally` block, hence on every exit path
and for every outcome; in `ComprehensiveCollector.search_batch` the delay
runs after a parsed response and after a non-2xx response, but is skipped
when the request raises (transport error) or the body fails to parse. -/
theorem C3_delay_paths (s : ExtState) (q : QuickState) (a : ApiStats)
    (apps : List (Nat × App)) (r : FetchResult) (status : Nat) (b : Body)
    (body : Option Body) :
    (ExtendedITunesCollector.search_apps s r).2.1.slept = true
    ∧ (QuickITunesCollector.search_apps q r).2.1.slept = true
    ∧ (ITunesAPIClient.search_apps a r).2.1.slept = true
    ∧ (ComprehensiveCollector.searchStep apps FetchResult.exn).2 = false
    ∧ (ComprehensiveCollector.searchStep apps (FetchResult.ok 200 none)).2 = false
    ∧ (ComprehensiveCollector.searchStep apps (FetchResult.ok status (some b))).2
        = true
    ∧ (ComprehensiveCollector.searchStep apps (FetchResult.ok 404 body)).2 = true
    ∧ (ComprehensiveCollector.searchStep apps (FetchResult.ok 500 body)).2
        = true := by
  refine ⟨?_, ?_, ?_, rfl, ?_, ?_, ?_, ?_⟩
  · cases r with
    | exn => rfl
    | ok st bd =>
      by_cases hs : st = 200
      · cases bd <;> simp [ExtendedITunesCollector.search_apps, hs]
      · simp [ExtendedITunesCollector.search_apps, hs]
  · cases r with
    | exn => rfl
    | ok st bd =>
      by_cases hs : st = 200
      · cases bd <;> simp [QuickITunesCollector.search_apps, hs]
      · simp [QuickITunesCollector.search_apps, hs]
  · cases r with
    | exn => rfl
    | ok st bd =>
      by_cases hs : st = 200
      · cases bd with
        | none => simp [ITunesAPIClient.search_apps, hs]
        | some b' =>
          obtain ⟨rc, rs⟩ := b'
          cases rc <;> simp [ITunesAPIClient.search_apps, hs]
      · simp [ITunesAPIClient.search_apps, hs]
  · simp [ComprehensiveCollector.searchStep]
  · by_cases hs : status = 200 <;> simp [ComprehensiveCollector.searchStep, hs]
  · cases body <;> simp [ComprehensiveCollector.searchStep]
  · cases body <;> simp [ComprehensiveCollector.searchStep]

/-- Claim C4: the claim as stated — on a failed query "the failed-request
counter increments by 1 and no other statistic changes for that query" —
is FALSE for the extended collector: a non-2xx response also increments
`total_requests` (the increment sits right after `session.get` returns).
Running `collect` on one query answered with HTTP 500 changes
`total_requests` from 0 to 1. -/
theorem C4_counterexample :
    (ExtendedITunesCollector.collect extInit
        [FetchResult.ok 500 none]).failed_requests = 1
    ∧ (ExtendedITunesCollector.collect extInit
        [FetchResult.ok 500 none]).total_requests = 1
    ∧ extInit.total_requests = 0 := by
  decide

/-- Claim C4 (amended): if the search call for one query fails, the query
contributes zero items (`all_apps` and `unique_apps` unchanged),
`failed_requests` increments by exactly 1, `successful_requests` and
`total_apps` are unchanged, and `total_requests` additionally increments
by 1 exactly when an HTTP response was received (non-2xx status or
malformed body) and not on a transport error; `collect` proceeds to the
next query without raising (the loop continues on the post-failure
state). -/
theorem C4_collect_failure_isolation (s : ExtState) (r : FetchResult)
    (rest : List FetchResult) (h : isFailure r = true) :
    (ExtendedITunesCollector.search_apps s r).2.2.all_apps = s.all_apps
    ∧ (ExtendedITunesCollector.search_apps s r).2.2.unique_apps = s.unique_apps
    ∧ (ExtendedITunesCollector.search_apps s r).2.2.failed_requests
        = s.failed_requests + 1
    ∧ (ExtendedITunesCollector.search_apps s r).2.2.successful_requests
        = s.successful_requests
    ∧ (ExtendedITunesCollector.search_apps s r).2.2.total_apps = s.total_apps
    ∧ (ExtendedITunesCollector.search_apps s r).2.2.total_requests
        = s.total_requests + (if gotResponse r then 1 else 0)
    ∧ ExtendedITunesCollector.collect s (r :: rest)
        = ExtendedITunesCollector.collect
            (ExtendedITunesCollector.search_apps s r).2.2 rest := by
  cases r with
  | exn => exact ⟨rfl, rfl, rfl, rfl, rfl, rfl, rfl⟩
  | ok status body =>
    by_cases hs : status = 200
    · cases body with
      | some b => simp [isFailure, hs] at h
      | none =>
        refine ⟨?_, ?_, ?_, ?_, ?_, ?_, rfl⟩ <;>
          simp [ExtendedITunesCollector.search_apps, hs, gotResponse]
    · refine ⟨?_, ?_, ?_, ?_, ?_, ?_, rfl⟩ <;>
        simp [ExtendedITunesCollector.search_apps, hs, gotResponse]

/-- Witness for `C4_collect_failure_isolation` at an HTTP 500 response on
a fresh collector with one further query. -/
theorem C4_collect_failure_isolation_witness :
    isFailure (FetchResult.ok 500 none) = true
    ∧ ((ExtendedITunesCollector.search_apps extInit
          (FetchResult.ok 500 none)).2.2.all_apps = extInit.all_apps
      ∧ (ExtendedITunesCollector.search_apps extInit
          (FetchResult.ok 500 none)).2.2.unique_apps = extInit.unique_apps
      ∧ (ExtendedITunesCollector.search_apps extInit
          (FetchResult.ok 500 none)).2.2.failed_requests
          = extInit.failed_requests + 1
      ∧ (ExtendedITunesCollector.search_apps extInit
          (FetchResult.ok 500 none)).2.2.successful_requests
          = extInit.successful_requests
      ∧ (ExtendedITunesCollector.search_apps extInit
          (FetchResult.ok 500 none)).2.2.total_apps = extInit.total_apps
      ∧ (ExtendedITunesCollector.search_apps extInit
          (FetchResult.ok 500 none)).2.2.total_requests
          = extInit.total_requests
            + (if gotResponse (FetchResult.ok 500 none) then 1 else 0)
      ∧ ExtendedITunesCollector.collect extInit
            (FetchResult.ok 500 none :: [FetchResult.exn])
          = ExtendedITunesCollector.collect
              (ExtendedITunesCollector.search_apps extInit
                (FetchResult.ok 500 none)).2.2 [FetchResult.exn]) :=
  ⟨by decide,
    C4_collect_failure_isolation extInit (FetchResult.ok 500 none)
      [FetchResult.exn] (by decide)⟩

/-- Claim C5: the claim as stated — for EVERY invocation of persist on an
unwritable destination the I/O error propagates out to the caller — is
FALSE for `ITunesAPIClient.save_data`: its write is wrapped in
`try ... except Exception: logger.error(...)`, so on an unwritable
destination it returns normally (and the file is not written). -/
theorem C5_counterexample :
    ITunesAPIClient.save_data WriteOutcome.ioError = Except.ok false := rfl

/-- Claim C5 (amended): `ExtendedITunesCollector.save_data` has no
exception handler, so on an unwritable destination the I/O error
propagates to the caller, and the in-memory collection is untouched (on a
writable destination the written document is exactly the collection's
values); `ITunesAPIClient.save_data`, however, catches the exception and
returns normally, surfacing no error. -/
theorem C5_persist_error (apps : List (Nat × App)) (fn : String) :
    ExtendedITunesCollector.save_data apps fn WriteOutcome.ioError
        = Except.error ()
    ∧ ExtendedITunesCollector.save_data apps fn WriteOutcome.writable
        = Except.ok (fn, apps.map Prod.snd)
    ∧ ITunesAPIClient.save_data WriteOutcome.ioError = Except.ok false :=
  ⟨rfl, rfl, rfl⟩

/-- Claim C6: at the end of every `collect` run of the extended collector
(and of every run of the quick collector) the `unique_apps` counter
equals the number of entries of the `all_apps` collection: both are
updated in lockstep inside the dedup loop.  The quantification over all
`FetchResult` sequences covers every run. -/
theorem C6_unique_matches_len (fs : List FetchResult) :
    (ExtendedITunesCollector.collect extInit fs).unique_apps
      = (ExtendedITunesCollector.collect extInit fs).all_apps.length
    ∧ (QuickITunesCollector.run quickInit fs).unique_apps
      = (QuickITunesCollector.run quickInit fs).all_apps.length :=
  ⟨(collect_inv fs extInit ⟨rfl, Nat.le_refl 0⟩).1,
    quick_run_inv fs quickInit rfl⟩

/-- Claim C7: at every point of every `collect` run of the extended
collector, `total_apps` (which counts every raw record seen, duplicates
included) is at least `unique_apps`.  The observable states of a run are
the states between `search_apps` calls, and every such state is the final
state of the run on the corresponding prefix of responses, so
quantifying over all response sequences covers every point of every
run. -/
theorem C7_total_ge_unique (fs : List FetchResult) :
    (ExtendedITunesCollector.collect extInit fs).total_apps
      ≥ (ExtendedITunesCollector.collect extInit fs).unique_apps :=
  (collect_inv fs extInit ⟨rfl, Nat.le_refl 0⟩).2

/-- Claim C8: the serialized document of `save_data` is a pure function
of the in-memory collection — it is exactly the collection's values —
so persisting the same collection at two different locations produces
identical item lists; this holds for the extended and the comprehensive
collector alike. -/
theorem C8_persist_pure (apps : List (Nat × App)) (f1 f2 : String) :
    docOf (ExtendedITunesCollector.save_data apps f1 WriteOutcome.writable)
      = docOf (ExtendedITunesCollector.save_data apps f2 WriteOutcome.writable)
    ∧ docOf (ExtendedITunesCollector.save_data apps f1 WriteOutcome.writable)
      = some (apps.map Prod.snd)
    ∧ docOf (ComprehensiveCollector.save_data apps f1 WriteOutcome.writable)
      = docOf (ComprehensiveCollector.save_data apps f2 WriteOutcome.writable)
    ∧ docOf (ComprehensiveCollector.save_data apps f1 WriteOutcome.writable)
      = some (apps.map Prod.snd) :=
  ⟨rfl, rfl, rfl, rfl⟩

/-- Claim C9: the request counters need not balance.  A transport
exception increments `failed_requests` without incrementing
`total_requests` (the increment sits after the `session.get` call), both
in `ITunesAPIClient.search_apps` and in
`ExtendedITunesCollector.search_apps`; every run maintains
`successful_requests ≤ total_requests ≤ successful_requests +
failed_requests`, and the balanced equation
`total_requests = successful_requests + failed_requests` already fails
after a single transport error. -/
theorem C9_counter_invariant (fs : List FetchResult) (a : ApiStats)
    (s : ExtState) :
    (ITunesAPIClient.search_apps a FetchResult.exn).2.2.failed_requests
        = a.failed_requests + 1
    ∧ (ITunesAPIClient.search_apps a FetchResult.exn).2.2.total_requests
        = a.total_requests
    ∧ (ExtendedITunesCollector.search_apps s FetchResult.exn).2.2.failed_requests
        = s.failed_requests + 1
    ∧ (ExtendedITunesCollector.search_apps s FetchResult.exn).2.2.total_requests
        = s.total_requests
    ∧ (ITunesAPIClient.run apiInit fs).successful_requests
        ≤ (ITunesAPIClient.run apiInit fs).total_requests
    ∧ (ITunesAPIClient.run apiInit fs).total_requests
        ≤ (ITunesAPIClient.run apiInit fs).successful_requests
          + (ITunesAPIClient.run apiInit fs).failed_requests
    ∧ (ExtendedITunesCollector.collect extInit fs).successful_requests
        ≤ (ExtendedITunesCollector.collect extInit fs).total_requests
    ∧ (ExtendedITunesCollector.collect extInit fs).total_requests
        ≤ (ExtendedITunesCollector.collect extInit fs).successful_requests
          + (ExtendedITunesCollector.collect extInit fs).failed_requests
    ∧ (ITunesAPIClient.run apiInit [FetchResult.exn]).total_requests
        ≠ (ITunesAPIClient.run apiInit [FetchResult.exn]).successful_requests
          + (ITunesAPIClient.run apiInit [FetchResult.exn]).failed_requests := by
  have hapi := api_run_reqInv fs apiInit ⟨Nat.le_refl 0, Nat.le_refl 0⟩
  have hext := ext_collect_reqInv fs extInit ⟨Nat.le_refl 0, Nat.le_refl 0⟩
  exact ⟨rfl, rfl, rfl, rfl, hapi.1, hapi.2, hext.1, hext.2, by decide⟩

/-- Claim C10: a returned record whose `trackId` is missing or falsy
(absent or 0) is counted in `total_apps` — which counts the length of
every successfully returned `results` list, this record included — but is
never inserted into `all_apps` (hence never counted in `unique_apps`,
which equals the collection size) and is absent from the document that
`save_data` would persist. -/
theorem C10_falsy_id_dropped (fs : List FetchResult) (a : App) (fn : String)
    (h : keyOf a = none) :
    (ExtendedITunesCollector.collect extInit fs).total_apps
        = (goodResults fs).length
    ∧ a ∉ (ExtendedITunesCollector.collect extInit fs).all_apps.map Prod.snd
    ∧ (ExtendedITunesCollector.collect extInit fs).unique_apps
        = (ExtendedITunesCollector.collect extInit fs).all_apps.length
    ∧ docOf (ExtendedITunesCollector.save_data
          (ExtendedITunesCollector.collect extInit fs).all_apps fn
          WriteOutcome.writable)
        = some ((ExtendedITunesCollector.collect extInit fs).all_apps.map
            Prod.snd) := by
  refine ⟨?_, ?_, (collect_inv fs extInit ⟨rfl, Nat.le_refl 0⟩).1, rfl⟩
  · simpa [extInit] using collect_total_apps fs extInit
  · intro hmem
    obtain ⟨p, hp, hsnd⟩ := List.mem_map.mp hmem
    have hwf := collect_WF fs extInit (by intro p hp; simp [extInit] at hp) p hp
    rw [hsnd, h] at hwf
    exact Option.noConfusion hwf

/-- Witness for `C10_falsy_id_dropped` at a record with `trackId = 0`
returned alongside a record with `trackId = 7`. -/
theorem C10_falsy_id_dropped_witness :
    keyOf ⟨some 0, 5⟩ = none
    ∧ ((ExtendedITunesCollector.collect extInit
          [FetchResult.ok 200 (some ⟨some 2, [⟨some 0, 5⟩, ⟨some 7, 9⟩]⟩)]).total_apps
        = (goodResults
            [FetchResult.ok 200 (some ⟨some 2, [⟨some 0, 5⟩, ⟨some 7, 9⟩]⟩)]).length
      ∧ (⟨some 0, 5⟩ : App) ∉ (ExtendedITunesCollector.collect extInit
          [FetchResult.ok 200 (some ⟨some 2, [⟨some 0, 5⟩, ⟨some 7, 9⟩]⟩)]).all_apps.map
            Prod.snd
      ∧ (ExtendedITunesCollector.collect extInit
          [FetchResult.ok 200 (some ⟨some 2, [⟨some 0, 5⟩, ⟨some 7, 9⟩]⟩)]).unique_apps
        = (ExtendedITunesCollector.collect extInit
            [FetchResult.ok 200 (some ⟨some 2, [⟨some 0, 5⟩, ⟨some 7, 9⟩]⟩)]).all_apps.length
      ∧ docOf (ExtendedITunesCollector.save_data
            (ExtendedITunesCollector.collect extInit
              [FetchResult.ok 200 (some ⟨some 2, [⟨some 0, 5⟩, ⟨some 7, 9⟩]⟩)]).all_apps
            "out.json" WriteOutcome.writable)
          = some ((ExtendedITunesCollector.collect extInit
              [FetchResult.ok 200 (some ⟨some 2, [⟨some 0, 5⟩, ⟨some 7, 9⟩]⟩)]).all_apps.map
                Prod.snd)) :=
  ⟨by decide,
    C10_falsy_id_dropped
      [FetchResult.ok 200 (some ⟨some 2, [⟨some 0, 5⟩, ⟨some 7, 9⟩]⟩)]
      ⟨some 0, 5⟩ "out.json" (by decide)⟩
